import Mathlib

/-!
Shallow embedding of the MicroEarn server's coin-accounting core
(src/routes/tasks.js, submissions.js, withdrawals.js, the payments router,
src/routes/auth.js and src/seed.js), faithful to the route handlers:
MongoDB `findOne` becomes `List.find?`, `updateOne` updates the first
matching element, `deleteMany` filters, `insertOne` appends, and each
handler is a function from a state to an outcome plus a post-state.
-/

namespace MicroEarn

inductive Role
  | worker
  | buyer
  | admin
  deriving DecidableEq, Repr

inductive TaskStatus
  | active
  | paused
  | completed
  | cancelled
  deriving DecidableEq, Repr

inductive SubStatus
  | pending
  | processing
  | approved
  | rejected
  deriving DecidableEq, Repr

inductive WStatus
  | pending
  | approved
  | rejected
  | completed
  deriving DecidableEq, Repr

inductive PayStatus
  | completed
  | failed
  deriving DecidableEq, Repr

structure User where
  id : Nat
  email : String
  role : Role
  coin : Int
  deriving DecidableEq, Repr

structure Task where
  id : Nat
  buyer : Nat
  reward : Int
  quantity : Int
  completedCount : Int
  status : TaskStatus
  deadline : Option Nat
  deriving DecidableEq, Repr

structure Submission where
  id : Nat
  task : Nat
  worker : Nat
  status : SubStatus
  rewardPaid : Int
  reviewedAt : Option Nat
  deriving DecidableEq, Repr

structure Withdrawal where
  id : Nat
  user : Nat
  amount : Int
  status : WStatus
  processedAt : Option Nat
  deriving DecidableEq, Repr

structure Payment where
  user : Nat
  packageId : String
  coins : Int
  amount : Int
  status : PayStatus
  createdAt : Nat
  deriving DecidableEq, Repr

structure St where
  users : List User
  tasks : List Task
  submissions : List Submission
  withdrawals : List Withdrawal
  payments : List Payment
  nextId : Nat
  deriving DecidableEq, Repr

def init : St := ⟨[], [], [], [], [], 0⟩

/-- Error kinds, one per distinct failure response of the handlers. -/
inductive Err
  | unauthorized
  | forbidden
  | validation
  | notFound
  | insufficientFunds
  | taskNotActive
  | maxSubmissions
  | deadlinePassed
  | alreadySubmitted
  | notFoundOrReviewed
  | pendingWithdrawalExists
  | cannotDeleteCompleted
  | duplicatePayment
  deriving DecidableEq, Repr

/-- Outcome of a request: the HTTP-level success or failure, plus the
database state after the handler ran (error paths may still have
mutated and rolled back state). -/
def Res := Except Err Unit × St

instance {ε α : Type} [DecidableEq ε] [DecidableEq α] : DecidableEq (Except ε α)
  | Except.ok a, Except.ok b =>
      if h : a = b then isTrue (h ▸ rfl) else isFalse (fun hh => h (Except.ok.inj hh))
  | Except.error e, Except.error f =>
      if h : e = f then isTrue (h ▸ rfl) else isFalse (fun hh => h (Except.error.inj hh))
  | Except.ok _, Except.error _ => isFalse Except.noConfusion
  | Except.error _, Except.ok _ => isFalse Except.noConfusion

/-- Update the first element satisfying `p` (MongoDB `updateOne`). -/
def updateFirst (p : α → Bool) (g : α → α) : List α → List α
  | [] => []
  | x :: xs => if p x then g x :: xs else x :: updateFirst p g xs

/-- Remove the first element satisfying `p` (MongoDB `deleteOne`). -/
def removeFirst (p : α → Bool) : List α → List α
  | [] => []
  | x :: xs => if p x then xs else x :: removeFirst p xs

def findUser (s : St) (uid : Nat) : Option User :=
  s.users.find? (fun u => u.id == uid)

def findTask (s : St) (tid : Nat) : Option Task :=
  s.tasks.find? (fun t => t.id == tid)

def findSubmission (s : St) (sid : Nat) : Option Submission :=
  s.submissions.find? (fun x => x.id == sid)

def findWithdrawal (s : St) (wid : Nat) : Option Withdrawal :=
  s.withdrawals.find? (fun w => w.id == wid)

def userCoin (s : St) (uid : Nat) : Option Int :=
  (findUser s uid).map (fun u => u.coin)

/-- Unconditional balance increment: updateOne on the user id with an $inc of d. -/
def incCoin (s : St) (uid : Nat) (d : Int) : St :=
  let users := updateFirst (fun u => u.id == uid) (fun u => { u with coin := u.coin + d }) s.users
  { s with users := users }

/-- Conditional debit: updateOne filtered on the user id and coin $gte amt,
with a $inc of -amt, together with the modifiedCount check. -/
def condDebit (s : St) (uid : Nat) (amt : Int) : Bool × St :=
  match s.users.find? (fun u => u.id == uid && amt ≤ u.coin) with
  | some _ =>
      let users := updateFirst (fun u => u.id == uid && amt ≤ u.coin)
        (fun u => { u with coin := u.coin - amt }) s.users
      (true, { s with users := users })
  | none => (false, s)

/-- Coin package price list from the payments router (immutable pricing). -/
structure Package where
  id : String
  coins : Int
  price : Int
  deriving DecidableEq, Repr

def COIN_PACKAGES : List Package :=
  [⟨"pkg_10", 10, 1⟩, ⟨"pkg_150", 150, 10⟩, ⟨"pkg_500", 500, 20⟩, ⟨"pkg_1000", 1000, 35⟩]

/-- Registration (POST /register in auth.js): role must be Worker or Buyer,
the email must be fresh, and the initial coin grant is 10 for a Worker and
50 for a Buyer. -/
def register (email : String) (role : Role) (s : St) : Res :=
  if role ≠ Role.worker ∧ role ≠ Role.buyer then (Except.error Err.validation, s)
  else
    match s.users.find? (fun u => u.email == email) with
    | some _ => (Except.error Err.validation, s)
    | none =>
        let coin : Int := if role = Role.worker then 10 else 50
        let u : User := ⟨s.nextId, email, role, coin⟩
        (Except.ok (), { s with users := s.users ++ [u], nextId := s.nextId + 1 })

/-- Google sign-in (POST /google in auth.js): a fresh email creates a Worker
account with 10 coins; an existing email just signs in. -/
def googleAuth (email : String) (s : St) : Res :=
  match s.users.find? (fun u => u.email == email) with
  | some _ => (Except.ok (), s)
  | none =>
      let u : User := ⟨s.nextId, email, Role.worker, 10⟩
      (Except.ok (), { s with users := s.users ++ [u], nextId := s.nextId + 1 })

/-- The admin seeding script (seed.js): creates the admin account with 0
coins when no user holds the admin email yet. -/
def seedAdmin (s : St) : Res :=
  match s.users.find? (fun u => u.email == "admin@microearn.com") with
  | some _ => (Except.ok (), s)
  | none =>
      let u : User := ⟨s.nextId, "admin@microearn.com", Role.admin, 0⟩
      (Except.ok (), { s with users := s.users ++ [u], nextId := s.nextId + 1 })

/-- Task creation (POST / in tasks.js, Buyer or Admin): validates positive
reward and quantity, pre-checks the balance against reward times quantity,
then performs the guarded atomic debit before inserting the task. -/
def createTask (caller : Nat) (reward quantity : Int) (deadline : Option Nat) (s : St) : Res :=
  match findUser s caller with
  | none => (Except.error Err.unauthorized, s)
  | some u =>
      if u.role ≠ Role.buyer ∧ u.role ≠ Role.admin then (Except.error Err.forbidden, s)
      else if reward ≤ 0 ∨ quantity ≤ 0 then (Except.error Err.validation, s)
      else
        let totalCost := reward * quantity
        match findUser s caller with
        | none => (Except.error Err.notFound, s)
        | some current =>
            if current.coin < totalCost then (Except.error Err.insufficientFunds, s)
            else
              match condDebit s caller totalCost with
              | (false, s1) => (Except.error Err.insufficientFunds, s1)
              | (true, s1) =>
                  let t : Task := ⟨s1.nextId, caller, reward, quantity, 0, TaskStatus.active, deadline⟩
                  (Except.ok (), { s1 with tasks := s1.tasks ++ [t], nextId := s1.nextId + 1 })

/-- Task deletion (DELETE /:id in tasks.js): owner or admin only, rejected
when the task is fully completed, refunds the remaining slots times the
reward to the buyer, deletes the task, and cascade-deletes only that
task's pending submissions. -/
def deleteTask (caller tid : Nat) (s : St) : Res :=
  match findUser s caller with
  | none => (Except.error Err.unauthorized, s)
  | some u =>
      match findTask s tid with
      | none => (Except.error Err.notFound, s)
      | some t =>
          if t.buyer ≠ caller ∧ u.role ≠ Role.admin then (Except.error Err.forbidden, s)
          else if t.quantity ≤ t.completedCount then (Except.error Err.cannotDeleteCompleted, s)
          else
            let refund := (t.quantity - t.completedCount) * t.reward
            let s1 := if refund > 0 then incCoin s t.buyer refund else s
            let tasks := removeFirst (fun x => x.id == tid) s1.tasks
            let subs := s1.submissions.filter
              (fun x => !(x.task == tid && x.status == SubStatus.pending))
            (Except.ok (), { s1 with tasks := tasks, submissions := subs })

/-- Submission creation (POST / in submissions.js, Worker only): the task
must exist, be active, have an open slot (completedCount below quantity),
an unexpired deadline, and no prior submission by this worker. -/
def createSubmission (caller tid : Nat) (now : Nat) (s : St) : Res :=
  match findUser s caller with
  | none => (Except.error Err.unauthorized, s)
  | some u =>
      if u.role ≠ Role.worker then (Except.error Err.forbidden, s)
      else
        match findTask s tid with
        | none => (Except.error Err.notFound, s)
        | some t =>
            if t.status ≠ TaskStatus.active then (Except.error Err.taskNotActive, s)
            else if t.quantity ≤ t.completedCount then (Except.error Err.maxSubmissions, s)
            else if (match t.deadline with | some d => decide (d < now) | none => false) then
              (Except.error Err.deadlinePassed, s)
            else
              match s.submissions.find? (fun x => x.task == tid && x.worker == caller) with
              | some _ => (Except.error Err.alreadySubmitted, s)
              | none =>
                  let sub : Submission := ⟨s.nextId, tid, caller, SubStatus.pending, 0, none⟩
                  (Except.ok (), { s with submissions := s.submissions ++ [sub], nextId := s.nextId + 1 })

/-- Submission review (PATCH /:id/review in submissions.js, Buyer or Admin):
locks the submission with a findOneAndUpdate conditioned on pending status
(setting status to processing and stamping reviewedAt), loads the task,
rolls the status back to pending on a missing task or failed ownership
check, then either applies the approval transaction (credit the worker
by the task reward, increment completedCount, set the submission to
approved with rewardPaid) or marks the submission rejected. -/
def reviewSubmission (caller sid : Nat) (approve : Bool) (now : Nat) (s : St) : Res :=
  match findUser s caller with
  | none => (Except.error Err.unauthorized, s)
  | some u =>
      if u.role ≠ Role.buyer ∧ u.role ≠ Role.admin then (Except.error Err.forbidden, s)
      else
        match s.submissions.find? (fun x => x.id == sid && x.status == SubStatus.pending) with
        | none => (Except.error Err.notFoundOrReviewed, s)
        | some sub =>
            let lock := fun (x : Submission) =>
              { x with status := SubStatus.processing, reviewedAt := some now }
            let subs1 := updateFirst
              (fun x => x.id == sid && x.status == SubStatus.pending) lock s.submissions
            let s1 := { s with submissions := subs1 }
            match findTask s1 sub.task with
            | none =>
                let subs2 := updateFirst (fun x => x.id == sid)
                  (fun x => { x with status := SubStatus.pending }) s1.submissions
                (Except.error Err.notFound, { s1 with submissions := subs2 })
            | some t =>
                if t.buyer ≠ caller ∧ u.role ≠ Role.admin then
                  let subs2 := updateFirst (fun x => x.id == sid)
                    (fun x => { x with status := SubStatus.pending }) s1.submissions
                  (Except.error Err.forbidden, { s1 with submissions := subs2 })
                else if approve then
                  let s2 := incCoin s1 sub.worker t.reward
                  let tasks := updateFirst (fun x => x.id == t.id)
                    (fun x => { x with completedCount := x.completedCount + 1 }) s2.tasks
                  let subs3 := updateFirst (fun x => x.id == sid)
                    (fun x => { x with status := SubStatus.approved, rewardPaid := t.reward,
                                       reviewedAt := some now }) s2.submissions
                  (Except.ok (), { s2 with tasks := tasks, submissions := subs3 })
                else
                  let subs3 := updateFirst (fun x => x.id == sid)
                    (fun x => { x with status := SubStatus.rejected, reviewedAt := some now })
                    s1.submissions
                  (Except.ok (), { s1 with submissions := subs3 })

def validPaymentMethods : List String := ["stripe", "bkash", "rocket", "nagad"]

/-- Withdrawal request (POST / in withdrawals.js, any authenticated user):
validates the amount (positive, at least the 200-coin minimum), re-reads
the balance, requires it to cover the amount, rejects when a pending
withdrawal already exists, validates the payment method, and inserts a
pending record WITHOUT debiting the balance. -/
def requestWithdrawal (caller : Nat) (amount : Int) (method : String) (s : St) : Res :=
  if amount ≤ 0 then (Except.error Err.validation, s)
  else if amount < 200 then (Except.error Err.validation, s)
  else
    match findUser s caller with
    | none => (Except.error Err.unauthorized, s)
    | some current =>
        if current.coin < amount then (Except.error Err.insufficientFunds, s)
        else
          match s.withdrawals.find? (fun w => w.user == caller && w.status == WStatus.pending) with
          | some _ => (Except.error Err.pendingWithdrawalExists, s)
          | none =>
              if !(validPaymentMethods.contains method) then (Except.error Err.validation, s)
              else
                let w : Withdrawal := ⟨s.nextId, caller, amount, WStatus.pending, none⟩
                (Except.ok (), { s with withdrawals := s.withdrawals ++ [w], nextId := s.nextId + 1 })

/-- Withdrawal processing (PATCH /:id in withdrawals.js, Admin only): on a
request for approved status it debits the user's balance by the amount
when the withdrawal is currently pending (an UNGUARDED $inc, with no
sufficiency filter), on a request for rejected status it refunds a
previously approved withdrawal, and then ALWAYS overwrites the stored
status with the requested one. -/
def processWithdrawal (caller wid : Nat) (newStatus : WStatus) (now : Nat) (s : St) : Res :=
  match findUser s caller with
  | none => (Except.error Err.unauthorized, s)
  | some u =>
      if u.role ≠ Role.admin then (Except.error Err.forbidden, s)
      else if newStatus = WStatus.pending then (Except.error Err.validation, s)
      else
        match findWithdrawal s wid with
        | none => (Except.error Err.notFound, s)
        | some w =>
            let s1 :=
              if newStatus = WStatus.approved ∧ w.status = WStatus.pending then
                incCoin s w.user (-w.amount)
              else if newStatus = WStatus.rejected ∧ w.status = WStatus.approved then
                incCoin s w.user w.amount
              else s
            let ws := updateFirst (fun x => x.id == wid)
              (fun x => { x with status := newStatus, processedAt := some now }) s1.withdrawals
            (Except.ok (), { s1 with withdrawals := ws })

/-- Coin purchase (POST /purchase in the payments router, Buyer or Admin):
validates the package id against the fixed price list, applies the
five-second duplicate-purchase guard on completed payments for the same
package by the same user, then appends a completed payment record and
unconditionally credits the package's coins. -/
def purchase (caller : Nat) (pkgId : String) (now : Nat) (s : St) : Res :=
  match findUser s caller with
  | none => (Except.error Err.unauthorized, s)
  | some u =>
      if u.role ≠ Role.buyer ∧ u.role ≠ Role.admin then (Except.error Err.forbidden, s)
      else
        match COIN_PACKAGES.find? (fun p => p.id == pkgId) with
        | none => (Except.error Err.validation, s)
        | some pkg =>
            match s.payments.find? (fun p =>
                p.user == caller && (now - 5000 ≤ p.createdAt : Bool)
                  && p.packageId == pkg.id && p.status == PayStatus.completed) with
            | some _ => (Except.error Err.duplicatePayment, s)
            | none =>
                let pay : Payment := ⟨caller, pkg.id, pkg.coins, pkg.price, PayStatus.completed, now⟩
                let s1 := { s with payments := s.payments ++ [pay] }
                (Except.ok (), incCoin s1 caller pkg.coins)

/-- The operations of the coin-accounting core, plus the account-creating
operations that let coins enter the system. -/
inductive Op
  | register (email : String) (role : Role)
  | googleAuth (email : String)
  | seedAdmin
  | createTask (caller : Nat) (reward quantity : Int) (deadline : Option Nat)
  | deleteTask (caller tid : Nat)
  | createSubmission (caller tid : Nat) (now : Nat)
  | reviewSubmission (caller sid : Nat) (approve : Bool) (now : Nat)
  | requestWithdrawal (caller : Nat) (amount : Int) (method : String)
  | processWithdrawal (caller wid : Nat) (newStatus : WStatus) (now : Nat)
  | purchase (caller : Nat) (pkgId : String) (now : Nat)
  deriving DecidableEq, Repr

def step (s : St) : Op → Res
  | Op.register email role => register email role s
  | Op.googleAuth email => googleAuth email s
  | Op.seedAdmin => seedAdmin s
  | Op.createTask caller reward quantity deadline => createTask caller reward quantity deadline s
  | Op.deleteTask caller tid => deleteTask caller tid s
  | Op.createSubmission caller tid now => createSubmission caller tid now s
  | Op.reviewSubmission caller sid approve now => reviewSubmission caller sid approve now s
  | Op.requestWithdrawal caller amount method => requestWithdrawal caller amount method s
  | Op.processWithdrawal caller wid newStatus now => processWithdrawal caller wid newStatus now s
  | Op.purchase caller pkgId now => purchase caller pkgId now s

/-- Run a sequence of operations from a state, keeping each post-state. -/
def run (s : St) (ops : List Op) : St :=
  ops.foldl (fun s op => (step s op).2) s

/-- The part of the completedCount invariant that the code does maintain:
completedCount never goes below zero. -/
def TasksNonneg (s : St) : Prop := ∀ t ∈ s.tasks, 0 ≤ t.completedCount

/-- Scenario: a Buyer signs up (50 coins), buys the 1000-coin package,
requests a 1000-coin withdrawal, then spends the full 1050-coin balance on
a task; an admin finally approves the still-pending withdrawal. -/
def c1seq : List Op :=
  [Op.seedAdmin, Op.register "b@x.com" Role.buyer,
   Op.purchase 1 "pkg_1000" 10000,
   Op.requestWithdrawal 1 1000 "stripe",
   Op.createTask 1 1050 1 none,
   Op.processWithdrawal 0 2 WStatus.approved 30000]

/-- Scenario prefix for the deferred-debit claim: same story as `c1seq`
but stopping just before the admin approves the withdrawal. -/
def c2seq : List Op :=
  [Op.seedAdmin, Op.register "b@x.com" Role.buyer,
   Op.purchase 1 "pkg_1000" 10000,
   Op.requestWithdrawal 1 1000 "stripe",
   Op.createTask 1 1050 1 none]

/-- Scenario: a quantity-1 task receives two pending submissions from two
different workers and the buyer approves both. -/
def c4seq : List Op :=
  [Op.seedAdmin, Op.register "b@x.com" Role.buyer,
   Op.register "w1@x.com" Role.worker, Op.register "w2@x.com" Role.worker,
   Op.createTask 1 10 1 none,
   Op.createSubmission 2 4 100, Op.createSubmission 3 4 101,
   Op.reviewSubmission 1 5 true 200, Op.reviewSubmission 1 6 true 201]

/-- Scenario: a quantity-1 task with one approved submission, leaving its
single slot consumed. -/
def c4wseq : List Op :=
  [Op.seedAdmin, Op.register "b@x.com" Role.buyer,
   Op.register "w1@x.com" Role.worker, Op.register "w2@x.com" Role.worker,
   Op.createTask 1 10 1 none,
   Op.createSubmission 2 4 100,
   Op.reviewSubmission 1 5 true 200]

/-- Scenario: a buyer funds a two-slot task and one worker files a pending
submission. -/
def c3seq : List Op :=
  [Op.seedAdmin, Op.register "b@x.com" Role.buyer, Op.register "w@x.com" Role.worker,
   Op.createTask 1 10 2 none,
   Op.createSubmission 2 3 100]

/-- The same scenario as `c3seq` followed by a second buyer signing up,
who does not own the task. -/
def c8seq : List Op :=
  [Op.seedAdmin, Op.register "b@x.com" Role.buyer, Op.register "w@x.com" Role.worker,
   Op.createTask 1 10 2 none,
   Op.createSubmission 2 3 100,
   Op.register "b2@x.com" Role.buyer]

/-- Scenario: a funded five-slot task with two approved submissions, ready
for deletion with a partial refund. -/
def c5seq : List Op :=
  [Op.seedAdmin, Op.register "b@x.com" Role.buyer,
   Op.register "w1@x.com" Role.worker, Op.register "w2@x.com" Role.worker,
   Op.purchase 1 "pkg_1000" 10000,
   Op.createTask 1 10 5 none,
   Op.createSubmission 2 4 100, Op.createSubmission 3 4 101,
   Op.reviewSubmission 1 5 true 200, Op.reviewSubmission 1 6 true 201]

/-- Scenario: a withdrawal is marked completed while still undebited; the
admin then re-processes the completed withdrawal as approved. -/
def c6seq : List Op :=
  [Op.seedAdmin, Op.register "b@x.com" Role.buyer,
   Op.purchase 1 "pkg_1000" 10000,
   Op.requestWithdrawal 1 200 "stripe",
   Op.processWithdrawal 0 2 WStatus.completed 20000]

/-! Generic lemmas about find?, updateFirst and removeFirst. -/

theorem find?_eq_some_split {α : Type} {p : α → Bool} {l : List α} {a : α}
    (h : l.find? p = some a) :
    ∃ l1 l2, l = l1 ++ a :: l2 ∧ ∀ x ∈ l1, p x = false := by
  induction l with
  | nil => simp at h
  | cons y ys ih =>
      by_cases hy : p y
      · refine ⟨[], ys, ?_, by simp⟩
        have : y = a := by simpa [List.find?, hy] using h
        simp [this]
      · have h' : ys.find? p = some a := by simpa [List.find?, hy] using h
        obtain ⟨l1, l2, rfl, hl1⟩ := ih h'
        refine ⟨y :: l1, l2, rfl, ?_⟩
        intro x hx
        rcases List.mem_cons.mp hx with rfl | hx
        · simpa using hy
        · exact hl1 x hx

theorem find?_append_cons {α : Type} {p : α → Bool} {l1 : List α} {a : α} (l2 : List α)
    (hl1 : ∀ x ∈ l1, p x = false) (ha : p a = true) :
    (l1 ++ a :: l2).find? p = some a := by
  induction l1 with
  | nil => simp [List.find?, ha]
  | cons y ys ih =>
      have hy := hl1 y (by simp)
      simp only [List.cons_append, List.find?, hy]
      exact ih (fun x hx => hl1 x (by simp [hx]))

theorem updateFirst_append_cons {α : Type} {p : α → Bool} (g : α → α) {l1 : List α} {a : α} (l2 : List α)
    (hl1 : ∀ x ∈ l1, p x = false) (ha : p a = true) :
    updateFirst p g (l1 ++ a :: l2) = l1 ++ g a :: l2 := by
  induction l1 with
  | nil => simp [updateFirst, ha]
  | cons y ys ih =>
      have hy := hl1 y (by simp)
      simp [updateFirst, hy, ih (fun x hx => hl1 x (by simp [hx]))]

theorem removeFirst_append_cons {α : Type} {p : α → Bool} {l1 : List α} {a : α} (l2 : List α)
    (hl1 : ∀ x ∈ l1, p x = false) (ha : p a = true) :
    removeFirst p (l1 ++ a :: l2) = l1 ++ l2 := by
  induction l1 with
  | nil => simp [removeFirst, ha]
  | cons y ys ih =>
      have hy := hl1 y (by simp)
      simp [removeFirst, hy, ih (fun x hx => hl1 x (by simp [hx]))]

theorem find?_eq_none_of_all {α : Type} {p : α → Bool} {l : List α}
    (h : ∀ x ∈ l, p x = false) : l.find? p = none := by
  rw [List.find?_eq_none]
  intro x hx
  simp [h x hx]

theorem nodup_split_right {α : Type} {f : α → Nat} {l1 l2 : List α} {a : α}
    (hnd : ((l1 ++ a :: l2).map f).Nodup) : ∀ x ∈ l2, f x ≠ f a := by
  intro x hx
  have h1 : ((a :: l2).map f).Nodup := (List.nodup_append.mp (by simpa using hnd)).2.1
  have h2 : f a ∉ l2.map f := by simpa using (List.nodup_cons.mp h1).1
  intro heq
  exact h2 (by simpa [heq] using List.mem_map_of_mem f hx)

theorem mem_updateFirst {α : Type} {p : α → Bool} {g : α → α} {l : List α} {x : α}
    (h : x ∈ updateFirst p g l) : x ∈ l ∨ ∃ y, y ∈ l ∧ x = g y := by
  induction l with
  | nil => simp [updateFirst] at h
  | cons y ys ih =>
      by_cases hy : p y
      · simp only [updateFirst, hy, if_true] at h
        rcases List.mem_cons.mp h with rfl | hx
        · exact Or.inr ⟨y, by simp⟩
        · exact Or.inl (by simp [hx])
      · simp only [updateFirst, hy] at h
        rcases List.mem_cons.mp (by simpa using h) with rfl | hx
        · exact Or.inl (by simp)
        · rcases ih hx with hl | ⟨z, hz, rfl⟩
          · exact Or.inl (by simp [hl])
          · exact Or.inr ⟨z, by simp [hz]⟩

theorem mem_of_mem_removeFirst {α : Type} {p : α → Bool} {l : List α} {x : α}
    (h : x ∈ removeFirst p l) : x ∈ l := by
  induction l with
  | nil => simp [removeFirst] at h
  | cons y ys ih =>
      by_cases hy : p y
      · simp only [removeFirst, hy, if_true] at h
        exact List.mem_cons_of_mem y h
      · simp only [removeFirst, hy] at h
        rcases List.mem_cons.mp (by simpa using h) with rfl | hx
        · simp
        · exact List.mem_cons_of_mem y (ih hx)


theorem find?_updateFirst_cases {α : Type} {p r : α → Bool} {g : α → α} {l : List α} {a : α}
    (hg : ∀ x, p (g x) = p x) (h : l.find? p = some a) :
    (updateFirst r g l).find? p = some a ∨ (updateFirst r g l).find? p = some (g a) := by
  induction l with
  | nil => simp at h
  | cons y ys ih =>
      by_cases hy : r y
      · simp only [updateFirst, hy, if_true]
        by_cases hpy : p y
        · have : y = a := by simpa [List.find?, hpy] using h
          subst this
          right
          simp [List.find?, hg, hpy]
        · have h' : ys.find? p = some a := by simpa [List.find?, hpy] using h
          left
          simp [List.find?, hg, hpy, h']
      · simp only [updateFirst, hy, if_false]
        by_cases hpy : p y
        · have : y = a := by simpa [List.find?, hpy] using h
          subst this
          left
          simp [List.find?, hpy]
        · have h' : ys.find? p = some a := by simpa [List.find?, hpy] using h
          rcases ih h' with h1 | h1
          · left
            simpa [List.find?, hpy] using h1
          · right
            simpa [List.find?, hpy] using h1

/-- C3: approving a pending submission (task owner or admin) sets the
submission to approved with rewardPaid equal to the task's reward, credits
the worker's balance by exactly that reward, and increments the task's
completedCount by exactly 1; a second approval attempt on the same
submission fails with the not-found-or-already-reviewed error and leaves
the state entirely unchanged, so the worker is never credited twice. -/
theorem review_approve_pays_once
    (s : St) (caller sid now now2 : Nat) (sub : Submission) (t : Task) (w c : User)
    (hnd : (s.submissions.map Submission.id).Nodup)
    (hc : findUser s caller = some c)
    (hcrole : c.role = Role.buyer ∨ c.role = Role.admin)
    (hsub : findSubmission s sid = some sub)
    (hpend : sub.status = SubStatus.pending)
    (ht : findTask s sub.task = some t)
    (hauth : t.buyer = caller ∨ c.role = Role.admin)
    (hw : findUser s sub.worker = some w) :
    (reviewSubmission caller sid true now s).1 = Except.ok () ∧
    findSubmission (reviewSubmission caller sid true now s).2 sid =
      some { sub with status := SubStatus.approved, rewardPaid := t.reward, reviewedAt := some now } ∧
    userCoin (reviewSubmission caller sid true now s).2 sub.worker = some (w.coin + t.reward) ∧
    findTask (reviewSubmission caller sid true now s).2 sub.task =
      some { t with completedCount := t.completedCount + 1 } ∧
    reviewSubmission caller sid true now2 (reviewSubmission caller sid true now s).2 =
      (Except.error Err.notFoundOrReviewed, (reviewSubmission caller sid true now s).2) := by
  obtain ⟨p1, p2, hps, hp1⟩ := find?_eq_some_split hsub
  obtain ⟨t1, t2, hts, ht1⟩ := find?_eq_some_split ht
  obtain ⟨u1, u2, hus, hu1⟩ := find?_eq_some_split hw
  have hsubid : (sub.id == sid) = true := by simpa using List.find?_some hsub
  have hsid : sub.id = sid := by simpa using hsubid
  have htid : t.id = sub.task := by simpa using List.find?_some ht
  have hwid : w.id = sub.worker := by simpa using List.find?_some hw
  have hq : (sub.id == sid && sub.status == SubStatus.pending) = true := by simp [hsubid, hpend]
  have hfq : s.submissions.find? (fun x => x.id == sid && x.status == SubStatus.pending)
      = some sub := by
    rw [hps]
    exact find?_append_cons _ (fun x hx => by simp [hp1 x hx]) hq
  have hrolecond : ¬ (c.role ≠ Role.buyer ∧ c.role ≠ Role.admin) := by tauto
  have hauthcond : ¬ (t.buyer ≠ caller ∧ c.role ≠ Role.admin) := by tauto
  have hlock : updateFirst (fun x => x.id == sid && x.status == SubStatus.pending)
      (fun x => { x with status := SubStatus.processing, reviewedAt := some now })
      s.submissions
      = p1 ++ { sub with status := SubStatus.processing, reviewedAt := some now } :: p2 := by
    rw [hps]
    exact updateFirst_append_cons _ _ (fun x hx => by simp [hp1 x hx]) hq
  have hfinal : updateFirst (fun x => x.id == sid)
      (fun x => { x with status := SubStatus.approved, rewardPaid := t.reward, reviewedAt := some now })
      (p1 ++ { sub with status := SubStatus.processing, reviewedAt := some now } :: p2)
      = p1 ++ { sub with status := SubStatus.approved, rewardPaid := t.reward, reviewedAt := some now } :: p2 := by
    exact updateFirst_append_cons _ _ (fun x hx => hp1 x hx) (by simp [hsubid])
  have husers : updateFirst (fun x => x.id == sub.worker)
      (fun u => { u with coin := u.coin + t.reward }) s.users
      = u1 ++ { w with coin := w.coin + t.reward } :: u2 := by
    rw [hus]
    exact updateFirst_append_cons _ _ (fun x hx => hu1 x hx) (by simp [hwid])
  have htasks : updateFirst (fun x => x.id == t.id)
      (fun x => { x with completedCount := x.completedCount + 1 }) s.tasks
      = t1 ++ { t with completedCount := t.completedCount + 1 } :: t2 := by
    rw [hts]
    exact updateFirst_append_cons _ _ (fun x hx => by simp [htid, ht1 x hx]) (by simp)
  have hS : reviewSubmission caller sid true now s =
      (Except.ok (),
        { s with users := u1 ++ { w with coin := w.coin + t.reward } :: u2, tasks := t1 ++ { t with completedCount := t.completedCount + 1 } :: t2, submissions := p1 ++ { sub with status := SubStatus.approved, rewardPaid := t.reward, reviewedAt := some now } :: p2 }) := by
    simp only [reviewSubmission, hc, hfq, if_neg hrolecond]
    have ht2 : s.tasks.find? (fun x => x.id == sub.task) = some t := by
      simpa [findTask] using ht
    simp only [findTask, ht2, if_neg hauthcond, if_true, incCoin]
    rw [hlock, husers]
    simp only [hfinal]
    rw [htasks]
  refine ⟨by rw [hS], ?_, ?_, ?_, ?_⟩
  · rw [hS]
    simp only [findSubmission]
    exact find?_append_cons _ (fun x hx => hp1 x hx) (by simp [hsubid])
  · rw [hS]
    simp only [userCoin, findUser]
    rw [find?_append_cons _ (fun x hx => hu1 x hx) (by simp [hwid])]
    rfl
  · rw [hS]
    simp only [findTask]
    rw [find?_append_cons _ (fun x hx => ht1 x hx) (by simp [htid])]
  · -- second attempt fails and leaves the state unchanged
    rw [hS]
    have hfq2 : (p1 ++ { sub with status := SubStatus.approved, rewardPaid := t.reward, reviewedAt := some now } :: p2).find? (fun x => x.id == sid && x.status == SubStatus.pending) = none := by
      apply find?_eq_none_of_all
      intro x hx
      rcases List.mem_append.mp hx with hx1 | hx2
      · simp [hp1 x hx1]
      · rcases List.mem_cons.mp hx2 with rfl | hx3
        · simp
        · have := nodup_split_right (by rw [hps] at hnd; exact hnd) x hx3
          have : x.id ≠ sid := by rw [hsid] at this; exact this
          simp [this]
    have hcS := find?_updateFirst_cases (p := fun x : User => x.id == caller)
      (r := fun x : User => x.id == sub.worker)
      (g := fun u : User => { u with coin := u.coin + t.reward })
      (fun x => rfl) (by simpa [findUser] using hc)
    rw [husers] at hcS
    rcases hcS with hcS | hcS
    · simp only [reviewSubmission, findUser, hcS, if_neg hrolecond, hfq2]
    · simp only [reviewSubmission, findUser, hcS, if_neg (show ¬ (({ c with coin := c.coin + t.reward } : User).role ≠ Role.buyer ∧ ({ c with coin := c.coin + t.reward } : User).role ≠ Role.admin) from hrolecond), hfq2]


/-- C7 (amended): rejecting a pending submission succeeds, marks the
submission rejected with a review timestamp, and leaves both the user list
(all balances) and the task list (including the task's quantity) entirely
unchanged; no slot is reopened. -/
theorem review_reject_state
    (s : St) (caller sid now : Nat) (sub : Submission) (t : Task) (c : User)
    (hc : findUser s caller = some c)
    (hcrole : c.role = Role.buyer ∨ c.role = Role.admin)
    (hsub : findSubmission s sid = some sub)
    (hpend : sub.status = SubStatus.pending)
    (ht : findTask s sub.task = some t)
    (hauth : t.buyer = caller ∨ c.role = Role.admin) :
    (reviewSubmission caller sid false now s).1 = Except.ok () ∧
    (reviewSubmission caller sid false now s).2.users = s.users ∧
    (reviewSubmission caller sid false now s).2.tasks = s.tasks ∧
    findSubmission (reviewSubmission caller sid false now s).2 sid =
      some { sub with status := SubStatus.rejected, reviewedAt := some now } := by
  obtain ⟨p1, p2, hps, hp1⟩ := find?_eq_some_split hsub
  have hsubid : (sub.id == sid) = true := by simpa using List.find?_some hsub
  have hq : (sub.id == sid && sub.status == SubStatus.pending) = true := by simp [hsubid, hpend]
  have hfq : s.submissions.find? (fun x => x.id == sid && x.status == SubStatus.pending)
      = some sub := by
    rw [hps]
    exact find?_append_cons _ (fun x hx => by simp [hp1 x hx]) hq
  have hrolecond : ¬ (c.role ≠ Role.buyer ∧ c.role ≠ Role.admin) := by tauto
  have hauthcond : ¬ (t.buyer ≠ caller ∧ c.role ≠ Role.admin) := by tauto
  have hlock : updateFirst (fun x => x.id == sid && x.status == SubStatus.pending)
      (fun x => { x with status := SubStatus.processing, reviewedAt := some now })
      s.submissions
      = p1 ++ { sub with status := SubStatus.processing, reviewedAt := some now } :: p2 := by
    rw [hps]
    exact updateFirst_append_cons _ _ (fun x hx => by simp [hp1 x hx]) hq
  have hfinal : updateFirst (fun x => x.id == sid)
      (fun x => { x with status := SubStatus.rejected, reviewedAt := some now })
      (p1 ++ { sub with status := SubStatus.processing, reviewedAt := some now } :: p2)
      = p1 ++ { sub with status := SubStatus.rejected, reviewedAt := some now } :: p2 := by
    exact updateFirst_append_cons _ _ (fun x hx => hp1 x hx) (by simp [hsubid])
  have hS : reviewSubmission caller sid false now s =
      (Except.ok (), { s with submissions := p1 ++ { sub with status := SubStatus.rejected, reviewedAt := some now } :: p2 }) := by
    simp only [reviewSubmission, hc, hfq, if_neg hrolecond]
    have ht2 : s.tasks.find? (fun x => x.id == sub.task) = some t := by
      simpa [findTask] using ht
    simp only [findTask, ht2, if_neg hauthcond, Bool.false_eq_true, if_false]
    rw [hlock]
    simp only [hfinal]
  refine ⟨by rw [hS], by rw [hS], by rw [hS], ?_⟩
  rw [hS]
  simp only [findSubmission]
  exact find?_append_cons _ (fun x hx => hp1 x hx) (by simp [hsubid])

/-- C8 (amended): when the reviewing caller is a buyer who does not own
the task, the review fails with Forbidden and balances and tasks are
untouched, and the submission's status is rolled back to pending — but its
reviewedAt field keeps the timestamp written by the processing lock, so
the record is not bit-for-bit as before. -/
theorem review_forbidden_rolls_back_status_only
    (s : St) (caller sid now : Nat) (approve : Bool) (sub : Submission) (t : Task) (c : User)
    (hc : findUser s caller = some c)
    (hcrole : c.role = Role.buyer)
    (hsub : findSubmission s sid = some sub)
    (hpend : sub.status = SubStatus.pending)
    (ht : findTask s sub.task = some t)
    (hnauth : t.buyer ≠ caller) :
    (reviewSubmission caller sid approve now s).1 = Except.error Err.forbidden ∧
    (reviewSubmission caller sid approve now s).2.users = s.users ∧
    (reviewSubmission caller sid approve now s).2.tasks = s.tasks ∧
    findSubmission (reviewSubmission caller sid approve now s).2 sid =
      some { sub with status := SubStatus.pending, reviewedAt := some now } := by
  obtain ⟨p1, p2, hps, hp1⟩ := find?_eq_some_split hsub
  have hsubid : (sub.id == sid) = true := by simpa using List.find?_some hsub
  have hq : (sub.id == sid && sub.status == SubStatus.pending) = true := by simp [hsubid, hpend]
  have hfq : s.submissions.find? (fun x => x.id == sid && x.status == SubStatus.pending)
      = some sub := by
    rw [hps]
    exact find?_append_cons _ (fun x hx => by simp [hp1 x hx]) hq
  have hrolecond : ¬ (c.role ≠ Role.buyer ∧ c.role ≠ Role.admin) := by tauto
  have hauthcond : t.buyer ≠ caller ∧ c.role ≠ Role.admin := by
    refine ⟨hnauth, ?_⟩
    rw [hcrole]
    intro h
    exact Role.noConfusion h
  have hlock : updateFirst (fun x => x.id == sid && x.status == SubStatus.pending)
      (fun x => { x with status := SubStatus.processing, reviewedAt := some now })
      s.submissions
      = p1 ++ { sub with status := SubStatus.processing, reviewedAt := some now } :: p2 := by
    rw [hps]
    exact updateFirst_append_cons _ _ (fun x hx => by simp [hp1 x hx]) hq
  have hroll : updateFirst (fun x => x.id == sid)
      (fun x => { x with status := SubStatus.pending })
      (p1 ++ { sub with status := SubStatus.processing, reviewedAt := some now } :: p2)
      = p1 ++ { sub with status := SubStatus.pending, reviewedAt := some now } :: p2 := by
    exact updateFirst_append_cons _ _ (fun x hx => hp1 x hx) (by simp [hsubid])
  have hS : reviewSubmission caller sid approve now s =
      (Except.error Err.forbidden, { s with submissions := p1 ++ { sub with status := SubStatus.pending, reviewedAt := some now } :: p2 }) := by
    simp only [reviewSubmission, hc, hfq, if_neg hrolecond]
    have ht2 : s.tasks.find? (fun x => x.id == sub.task) = some t := by
      simpa [findTask] using ht
    simp only [findTask, ht2, if_pos hauthcond]
    rw [hlock]
    simp only [hroll]
  refine ⟨by rw [hS], by rw [hS], by rw [hS], ?_⟩
  rw [hS]
  simp only [findSubmission]
  exact find?_append_cons _ (fun x hx => hp1 x hx) (by simp [hsubid])


theorem createTask_escrow_exact
    (s : St) (caller : Nat) (reward quantity : Int) (deadline : Option Nat) (u : User)
    (hc : findUser s caller = some u) (hrole : u.role = Role.buyer)
    (hr : 0 < reward) (hq : 0 < quantity) (hcoin : reward * quantity ≤ u.coin) :
    (createTask caller reward quantity deadline s).1 = Except.ok () ∧
    userCoin (createTask caller reward quantity deadline s).2 caller =
      some (u.coin - reward * quantity) ∧
    (createTask caller reward quantity deadline s).2.tasks =
      s.tasks ++ [⟨s.nextId, caller, reward, quantity, 0, TaskStatus.active, deadline⟩] := by
  obtain ⟨u1, u2, hus, hu1⟩ := find?_eq_some_split hc
  have huid : (u.id == caller) = true := by simpa using List.find?_some hc
  have hrolecond : ¬ (u.role ≠ Role.buyer ∧ u.role ≠ Role.admin) := by tauto
  have hvalid : ¬ (reward ≤ 0 ∨ quantity ≤ 0) := by omega
  have hnlt : ¬ (u.coin < reward * quantity) := by omega
  have hfq : s.users.find? (fun x => x.id == caller && reward * quantity ≤ x.coin) = some u := by
    rw [hus]
    refine find?_append_cons _ (fun x hx => by simp [hu1 x hx]) ?_
    simp only [huid, Bool.true_and]
    simpa using hcoin
  have hupd : updateFirst (fun x => x.id == caller && reward * quantity ≤ x.coin)
      (fun x => { x with coin := x.coin - reward * quantity }) s.users
      = u1 ++ { u with coin := u.coin - reward * quantity } :: u2 := by
    rw [hus]
    refine updateFirst_append_cons _ _ (fun x hx => by simp [hu1 x hx]) ?_
    simp only [huid, Bool.true_and]
    simpa using hcoin
  have hS : createTask caller reward quantity deadline s =
      (Except.ok (), { s with users := u1 ++ { u with coin := u.coin - reward * quantity } :: u2, tasks := s.tasks ++ [⟨s.nextId, caller, reward, quantity, 0, TaskStatus.active, deadline⟩], nextId := s.nextId + 1 }) := by
    simp only [createTask, hc, if_neg hrolecond, if_neg hvalid, if_neg hnlt, condDebit, hfq, hupd]
  refine ⟨by rw [hS], ?_, by rw [hS]⟩
  rw [hS]
  simp only [userCoin, findUser]
  rw [find?_append_cons _ (fun x hx => hu1 x hx) (by simpa using huid)]
  rfl

theorem createTask_insufficient_rejected
    (s : St) (caller : Nat) (reward quantity : Int) (deadline : Option Nat) (u : User)
    (hc : findUser s caller = some u) (hrole : u.role = Role.buyer)
    (hr : 0 < reward) (hq : 0 < quantity) (hcoin : u.coin < reward * quantity) :
    createTask caller reward quantity deadline s = (Except.error Err.insufficientFunds, s) := by
  have hrolecond : ¬ (u.role ≠ Role.buyer ∧ u.role ≠ Role.admin) := by tauto
  have hvalid : ¬ (reward ≤ 0 ∨ quantity ≤ 0) := by omega
  simp only [createTask, hc, if_neg hrolecond, if_neg hvalid, if_pos hcoin]

theorem deleteTask_refund_and_cascade
    (s : St) (caller tid : Nat) (u : User) (t : Task)
    (hc : findUser s caller = some u)
    (ht : findTask s tid = some t)
    (howner : t.buyer = caller)
    (hnc : t.completedCount < t.quantity)
    (hrw : 0 < t.reward)
    (hnd : (s.tasks.map Task.id).Nodup) :
    (deleteTask caller tid s).1 = Except.ok () ∧
    userCoin (deleteTask caller tid s).2 caller =
      some (u.coin + (t.quantity - t.completedCount) * t.reward) ∧
    findTask (deleteTask caller tid s).2 tid = none ∧
    (deleteTask caller tid s).2.submissions =
      s.submissions.filter (fun x => !(x.task == tid && x.status == SubStatus.pending)) := by
  obtain ⟨u1, u2, hus, hu1⟩ := find?_eq_some_split hc
  obtain ⟨t1, t2, hts, ht1⟩ := find?_eq_some_split ht
  have huid : (u.id == caller) = true := by simpa using List.find?_some hc
  have htid : (t.id == tid) = true := by simpa using List.find?_some ht
  have htid' : t.id = tid := by simpa using htid
  have hownercond : ¬ (t.buyer ≠ caller ∧ u.role ≠ Role.admin) := by tauto
  have hcompleted : ¬ (t.quantity ≤ t.completedCount) := by omega
  have hrefund : (t.quantity - t.completedCount) * t.reward > 0 :=
    mul_pos (by omega) hrw
  have hupd : updateFirst (fun x => x.id == caller)
      (fun x => { x with coin := x.coin + (t.quantity - t.completedCount) * t.reward }) s.users
      = u1 ++ { u with coin := u.coin + (t.quantity - t.completedCount) * t.reward } :: u2 := by
    rw [hus]
    exact updateFirst_append_cons _ _ (fun x hx => hu1 x hx) huid
  have hrem : removeFirst (fun x => x.id == tid) s.tasks = t1 ++ t2 := by
    rw [hts]
    exact removeFirst_append_cons _ (fun x hx => ht1 x hx) htid
  have hS : deleteTask caller tid s =
      (Except.ok (), { s with users := u1 ++ { u with coin := u.coin + (t.quantity - t.completedCount) * t.reward } :: u2, tasks := t1 ++ t2, submissions := s.submissions.filter (fun x => !(x.task == tid && x.status == SubStatus.pending)) }) := by
    simp only [deleteTask, hc, ht, if_neg hownercond, if_neg hcompleted, if_pos hrefund,
      incCoin, howner, hupd, hrem]
    simp
  refine ⟨by rw [hS], ?_, ?_, by rw [hS]⟩
  · rw [hS]
    simp only [userCoin, findUser]
    rw [find?_append_cons _ (fun x hx => hu1 x hx) (by simpa using huid)]
    rfl
  · rw [hS]
    simp only [findTask]
    apply find?_eq_none_of_all
    intro x hx
    rcases List.mem_append.mp hx with hx1 | hx2
    · exact ht1 x hx1
    · have hne : x.id ≠ t.id := nodup_split_right (by rw [hts] at hnd; exact hnd) x hx2
      rw [htid'] at hne
      simp [hne]


/-- C6 (amended): processing an existing withdrawal as an admin always
succeeds whatever its current status: the stored status is overwritten
with the requested one, and the user's balance changes by exactly
-amount on a pending-to-approved transition, +amount on an
approved-to-rejected transition, and 0 otherwise; there is no
pending-only compare-and-set and no invalid-state failure. -/
theorem processWithdrawal_always_overwrites
    (s : St) (caller wid : Nat) (newStatus : WStatus) (now : Nat) (a u : User) (w : Withdrawal)
    (hadm : findUser s caller = some a) (harole : a.role = Role.admin)
    (hns : newStatus ≠ WStatus.pending)
    (hw : findWithdrawal s wid = some w)
    (husr : findUser s w.user = some u) :
    (processWithdrawal caller wid newStatus now s).1 = Except.ok () ∧
    findWithdrawal (processWithdrawal caller wid newStatus now s).2 wid =
      some { w with status := newStatus, processedAt := some now } ∧
    userCoin (processWithdrawal caller wid newStatus now s).2 w.user =
      some (u.coin + (if newStatus = WStatus.approved ∧ w.status = WStatus.pending then -w.amount else if newStatus = WStatus.rejected ∧ w.status = WStatus.approved then w.amount else 0)) := by
  obtain ⟨u1, u2, hus, hu1⟩ := find?_eq_some_split husr
  obtain ⟨w1, w2, hws, hw1⟩ := find?_eq_some_split hw
  have huid : (u.id == w.user) = true := by simpa using List.find?_some husr
  have hwid : (w.id == wid) = true := by simpa using List.find?_some hw
  have harolecond : ¬ (a.role ≠ Role.admin) := by simp [harole]
  have hwupd : ∀ s1 : St, s1.withdrawals = s.withdrawals →
      updateFirst (fun x => x.id == wid)
        (fun x => { x with status := newStatus, processedAt := some now }) s1.withdrawals
      = w1 ++ { w with status := newStatus, processedAt := some now } :: w2 := by
    intro s1 h1
    rw [h1, hws]
    exact updateFirst_append_cons _ _ (fun x hx => hw1 x hx) hwid
  have hwfind : (w1 ++ { w with status := newStatus, processedAt := some now } :: w2).find?
      (fun x => x.id == wid) = some { w with status := newStatus, processedAt := some now } := by
    exact find?_append_cons _ (fun x hx => hw1 x hx) (by simpa using hwid)
  by_cases hA : newStatus = WStatus.approved ∧ w.status = WStatus.pending
  · have hupd : updateFirst (fun x => x.id == w.user)
        (fun x => { x with coin := x.coin + -w.amount }) s.users
        = u1 ++ { u with coin := u.coin + -w.amount } :: u2 := by
      rw [hus]
      exact updateFirst_append_cons _ _ (fun x hx => hu1 x hx) huid
    have hS : processWithdrawal caller wid newStatus now s =
        (Except.ok (), { s with users := u1 ++ { u with coin := u.coin + -w.amount } :: u2, withdrawals := w1 ++ { w with status := newStatus, processedAt := some now } :: w2 }) := by
      simp only [processWithdrawal, hadm, if_neg harolecond, if_neg hns, hw, if_pos hA, incCoin,
        hupd]
      rw [hwupd _ rfl]
    refine ⟨by rw [hS], ?_, ?_⟩
    · rw [hS]
      simpa only [findWithdrawal] using hwfind
    · rw [hS]
      simp only [userCoin, findUser]
      rw [find?_append_cons _ (fun x hx => hu1 x hx) (by simpa using huid)]
      simp [if_pos hA]
  · by_cases hB : newStatus = WStatus.rejected ∧ w.status = WStatus.approved
    · have hupd : updateFirst (fun x => x.id == w.user)
          (fun x => { x with coin := x.coin + w.amount }) s.users
          = u1 ++ { u with coin := u.coin + w.amount } :: u2 := by
        rw [hus]
        exact updateFirst_append_cons _ _ (fun x hx => hu1 x hx) huid
      have hS : processWithdrawal caller wid newStatus now s =
          (Except.ok (), { s with users := u1 ++ { u with coin := u.coin + w.amount } :: u2, withdrawals := w1 ++ { w with status := newStatus, processedAt := some now } :: w2 }) := by
        simp only [processWithdrawal, hadm, if_neg harolecond, if_neg hns, hw, if_neg hA,
          if_pos hB, incCoin, hupd]
        rw [hwupd _ rfl]
      refine ⟨by rw [hS], ?_, ?_⟩
      · rw [hS]
        simpa only [findWithdrawal] using hwfind
      · rw [hS]
        simp only [userCoin, findUser]
        rw [find?_append_cons _ (fun x hx => hu1 x hx) (by simpa using huid)]
        simp [if_neg hA, if_pos hB]
    · have hS : processWithdrawal caller wid newStatus now s =
          (Except.ok (), { s with withdrawals := w1 ++ { w with status := newStatus, processedAt := some now } :: w2 }) := by
        simp only [processWithdrawal, hadm, if_neg harolecond, if_neg hns, hw, if_neg hA,
          if_neg hB]
        rw [hwupd _ rfl]
      refine ⟨by rw [hS], ?_, ?_⟩
      · rw [hS]
        simpa only [findWithdrawal] using hwfind
      · rw [hS]
        simp only [userCoin, findUser]
        rw [show ({ s with withdrawals := w1 ++ { w with status := newStatus, processedAt := some now } :: w2 } : St).users = s.users from rfl, hus]
        rw [find?_append_cons _ (fun x hx => hu1 x hx) (by simpa using huid)]
        simp [if_neg hA, if_neg hB]


theorem purchase_invalid_package
    (s : St) (caller : Nat) (pkgId : String) (now : Nat) (u : User)
    (hc : findUser s caller = some u) (hrole : u.role = Role.buyer ∨ u.role = Role.admin)
    (hpk : COIN_PACKAGES.find? (fun p => p.id == pkgId) = none) :
    purchase caller pkgId now s = (Except.error Err.validation, s) := by
  have hrolecond : ¬ (u.role ≠ Role.buyer ∧ u.role ≠ Role.admin) := by tauto
  simp only [purchase, hc, if_neg hrolecond, hpk]

theorem purchase_ok_state
    (s : St) (caller : Nat) (pkgId : String) (now : Nat) (u : User) (pkg : Package)
    (u1 u2 : List User)
    (hc : findUser s caller = some u) (hrole : u.role = Role.buyer ∨ u.role = Role.admin)
    (hus : s.users = u1 ++ u :: u2) (hu1 : ∀ x ∈ u1, (x.id == caller) = false)
    (hpk : COIN_PACKAGES.find? (fun p => p.id == pkgId) = some pkg)
    (hdup : s.payments.find? (fun p => p.user == caller && (now - 5000 ≤ p.createdAt : Bool) && p.packageId == pkg.id && p.status == PayStatus.completed) = none) :
    purchase caller pkgId now s =
      (Except.ok (), { s with users := u1 ++ { u with coin := u.coin + pkg.coins } :: u2, payments := s.payments ++ [⟨caller, pkg.id, pkg.coins, pkg.price, PayStatus.completed, now⟩] }) := by
  have huid : (u.id == caller) = true := by simpa using List.find?_some hc
  have hrolecond : ¬ (u.role ≠ Role.buyer ∧ u.role ≠ Role.admin) := by tauto
  have hupd : updateFirst (fun x => x.id == caller)
      (fun x => { x with coin := x.coin + pkg.coins }) s.users
      = u1 ++ { u with coin := u.coin + pkg.coins } :: u2 := by
    rw [hus]
    exact updateFirst_append_cons _ _ (fun x hx => hu1 x hx) huid
  simp only [purchase, hc, if_neg hrolecond, hpk, hdup, incCoin, hupd]

theorem purchase_credits_fixed_amount
    (s : St) (caller : Nat) (pkgId : String) (now : Nat) (u : User) (pkg : Package)
    (hc : findUser s caller = some u) (hrole : u.role = Role.buyer ∨ u.role = Role.admin)
    (hpk : COIN_PACKAGES.find? (fun p => p.id == pkgId) = some pkg)
    (hdup : s.payments.find? (fun p => p.user == caller && (now - 5000 ≤ p.createdAt : Bool) && p.packageId == pkg.id && p.status == PayStatus.completed) = none) :
    (purchase caller pkgId now s).1 = Except.ok () ∧
    userCoin (purchase caller pkgId now s).2 caller = some (u.coin + pkg.coins) ∧
    (purchase caller pkgId now s).2.payments =
      s.payments ++ [⟨caller, pkg.id, pkg.coins, pkg.price, PayStatus.completed, now⟩] := by
  obtain ⟨u1, u2, hus, hu1⟩ := find?_eq_some_split hc
  have hS := purchase_ok_state s caller pkgId now u pkg u1 u2 hc hrole hus hu1 hpk hdup
  refine ⟨by rw [hS], ?_, by rw [hS]⟩
  rw [hS]
  simp only [userCoin, findUser]
  rw [find?_append_cons _ (fun x hx => hu1 x hx) (by simpa using List.find?_some hc)]
  rfl

theorem purchase_duplicate_rejected
    (s2 : St) (caller : Nat) (pkgId : String) (now : Nat) (u2 : User) (pkg : Package) (p0 : Payment)
    (hc : findUser s2 caller = some u2) (hrole : u2.role = Role.buyer ∨ u2.role = Role.admin)
    (hpk : COIN_PACKAGES.find? (fun p => p.id == pkgId) = some pkg)
    (hdup : s2.payments.find? (fun p => p.user == caller && (now - 5000 ≤ p.createdAt : Bool) && p.packageId == pkg.id && p.status == PayStatus.completed) = some p0) :
    purchase caller pkgId now s2 = (Except.error Err.duplicatePayment, s2) := by
  have hrolecond : ¬ (u2.role ≠ Role.buyer ∧ u2.role ≠ Role.admin) := by tauto
  simp only [purchase, hc, if_neg hrolecond, hpk, hdup]

theorem purchase_duplicate_window_rejected
    (s : St) (caller : Nat) (pkgId : String) (n1 n2 : Nat) (u : User) (pkg : Package)
    (hc : findUser s caller = some u) (hrole : u.role = Role.buyer ∨ u.role = Role.admin)
    (hpk : COIN_PACKAGES.find? (fun p => p.id == pkgId) = some pkg)
    (hdup1 : s.payments.find? (fun p => p.user == caller && (n1 - 5000 ≤ p.createdAt : Bool) && p.packageId == pkg.id && p.status == PayStatus.completed) = none)
    (hdup2 : s.payments.find? (fun p => p.user == caller && (n2 - 5000 ≤ p.createdAt : Bool) && p.packageId == pkg.id && p.status == PayStatus.completed) = none)
    (hwin : n2 - 5000 ≤ n1) :
    purchase caller pkgId n2 (purchase caller pkgId n1 s).2 =
      (Except.error Err.duplicatePayment, (purchase caller pkgId n1 s).2) := by
  obtain ⟨u1, u2, hus, hu1⟩ := find?_eq_some_split hc
  have huid : (u.id == caller) = true := by simpa using List.find?_some hc
  have hS := purchase_ok_state s caller pkgId n1 u pkg u1 u2 hc hrole hus hu1 hpk hdup1
  have hc2 : findUser (purchase caller pkgId n1 s).2 caller = some { u with coin := u.coin + pkg.coins } := by
    rw [hS]
    simp only [findUser]
    exact find?_append_cons _ (fun x hx => hu1 x hx) (by simpa using huid)
  have hall : ∀ x ∈ s.payments,
      (x.user == caller && (n2 - 5000 ≤ x.createdAt : Bool) && x.packageId == pkg.id && x.status == PayStatus.completed) = false := by
    intro x hx
    have := List.find?_eq_none.mp hdup2 x hx
    simpa using this
  have hfind2 : ((purchase caller pkgId n1 s).2.payments).find?
      (fun p => p.user == caller && (n2 - 5000 ≤ p.createdAt : Bool) && p.packageId == pkg.id && p.status == PayStatus.completed) = some (⟨caller, pkg.id, pkg.coins, pkg.price, PayStatus.completed, n1⟩ : Payment) := by
    rw [hS]
    refine find?_append_cons _ (fun x hx => hall x hx) ?_
    simp [hwin]
  exact purchase_duplicate_rejected _ caller pkgId n2 _ pkg _ hc2 (by simpa using hrole) hpk hfind2

theorem register_worker_grant (s : St) (email : String)
    (hfresh : s.users.find? (fun u => u.email == email) = none) :
    register email Role.worker s =
      (Except.ok (), { s with users := s.users ++ [⟨s.nextId, email, Role.worker, 10⟩], nextId := s.nextId + 1 }) := by
  simp [register, hfresh]

theorem register_buyer_grant (s : St) (email : String)
    (hfresh : s.users.find? (fun u => u.email == email) = none) :
    register email Role.buyer s =
      (Except.ok (), { s with users := s.users ++ [⟨s.nextId, email, Role.buyer, 50⟩], nextId := s.nextId + 1 }) := by
  simp [register, hfresh]

theorem googleAuth_worker_grant (s : St) (email : String)
    (hfresh : s.users.find? (fun u => u.email == email) = none) :
    googleAuth email s =
      (Except.ok (), { s with users := s.users ++ [⟨s.nextId, email, Role.worker, 10⟩], nextId := s.nextId + 1 }) := by
  simp [googleAuth, hfresh]




theorem condDebit_tasks (s : St) (uid : Nat) (amt : Int) :
    (condDebit s uid amt).2.tasks = s.tasks := by
  unfold condDebit
  repeat' split
  all_goals rfl

theorem register_tasks (email : String) (role : Role) (s : St) :
    (register email role s).2.tasks = s.tasks := by
  unfold register
  repeat' split
  all_goals rfl

theorem googleAuth_tasks (email : String) (s : St) :
    (googleAuth email s).2.tasks = s.tasks := by
  unfold googleAuth
  repeat' split
  all_goals rfl

theorem seedAdmin_tasks (s : St) : (seedAdmin s).2.tasks = s.tasks := by
  unfold seedAdmin
  repeat' split
  all_goals rfl

theorem createSubmission_tasks (caller tid now : Nat) (s : St) :
    (createSubmission caller tid now s).2.tasks = s.tasks := by
  unfold createSubmission
  repeat' split
  all_goals rfl

theorem requestWithdrawal_tasks (caller : Nat) (amount : Int) (method : String) (s : St) :
    (requestWithdrawal caller amount method s).2.tasks = s.tasks := by
  unfold requestWithdrawal
  repeat' split
  all_goals rfl

theorem processWithdrawal_tasks (caller wid : Nat) (newStatus : WStatus) (now : Nat) (s : St) :
    (processWithdrawal caller wid newStatus now s).2.tasks = s.tasks := by
  unfold processWithdrawal incCoin
  repeat' split
  all_goals rfl

theorem purchase_tasks (caller : Nat) (pkgId : String) (now : Nat) (s : St) :
    (purchase caller pkgId now s).2.tasks = s.tasks := by
  unfold purchase incCoin
  repeat' split
  all_goals rfl

theorem createTask_tasksNonneg (caller : Nat) (reward quantity : Int) (deadline : Option Nat)
    (s : St) (h : TasksNonneg s) : TasksNonneg (createTask caller reward quantity deadline s).2 := by
  unfold createTask
  split
  · exact h
  · split
    · exact h
    · split
      · exact h
      · simp only []
        split
        · exact h
        · split
          next s1 heq =>
            intro x hx
            have htk : s1.tasks = s.tasks := by
              have h2 : (condDebit s caller (reward * quantity)).2 = s1 := congrArg Prod.snd heq
              rw [← h2]
              exact condDebit_tasks s caller (reward * quantity)
            rw [show ((Except.error Err.insufficientFunds, s1) : Res).2.tasks = s1.tasks from rfl, htk] at hx
            exact h x hx
          next s1 heq =>
            intro x hx
            have htk : s1.tasks = s.tasks := by
              have h2 : (condDebit s caller (reward * quantity)).2 = s1 := congrArg Prod.snd heq
              rw [← h2]
              exact condDebit_tasks s caller (reward * quantity)
            rcases (by simpa using hx : x ∈ s1.tasks ∨ x = (⟨s1.nextId, caller, reward, quantity, 0, TaskStatus.active, deadline⟩ : Task)) with hx1 | hx2
            · exact h x (htk ▸ hx1)
            · simp [hx2]

theorem deleteTask_tasksNonneg (caller tid : Nat) (s : St) (h : TasksNonneg s) :
    TasksNonneg (deleteTask caller tid s).2 := by
  unfold deleteTask
  split
  · exact h
  · split
    · exact h
    · split
      · exact h
      · split
        · exact h
        next u hcu t htt hown hcompl =>
          intro x hx
          simp only [] at hx
          have hiftasks : (if (t.quantity - t.completedCount) * t.reward > 0
              then incCoin s t.buyer ((t.quantity - t.completedCount) * t.reward) else s).tasks
              = s.tasks := by
            split
            · rfl
            · rfl
          rw [hiftasks] at hx
          exact h x (mem_of_mem_removeFirst hx)

theorem reviewSubmission_tasksNonneg (caller sid : Nat) (approve : Bool) (now : Nat)
    (s : St) (h : TasksNonneg s) : TasksNonneg (reviewSubmission caller sid approve now s).2 := by
  unfold reviewSubmission
  split
  · exact h
  · split
    · exact h
    · split
      · exact h
      · simp only []
        split
        · exact h
        · split
          · exact h
          · split
            · intro x hx
              rcases mem_updateFirst (by simpa using hx) with hx1 | ⟨y, hy, rfl⟩
              · exact h x hx1
              · have := h y hy
                simp only []
                omega
            · exact h

theorem step_tasksNonneg (s : St) (op : Op) (h : TasksNonneg s) : TasksNonneg (step s op).2 := by
  cases op with
  | register email role => exact fun t ht => h t ((register_tasks email role s) ▸ ht)
  | googleAuth email => exact fun t ht => h t ((googleAuth_tasks email s) ▸ ht)
  | seedAdmin => exact fun t ht => h t ((seedAdmin_tasks s) ▸ ht)
  | createTask caller reward quantity deadline =>
      exact createTask_tasksNonneg caller reward quantity deadline s h
  | deleteTask caller tid => exact deleteTask_tasksNonneg caller tid s h
  | createSubmission caller tid now =>
      exact fun t ht => h t ((createSubmission_tasks caller tid now s) ▸ ht)
  | reviewSubmission caller sid approve now =>
      exact reviewSubmission_tasksNonneg caller sid approve now s h
  | requestWithdrawal caller amount method =>
      exact fun t ht => h t ((requestWithdrawal_tasks caller amount method s) ▸ ht)
  | processWithdrawal caller wid newStatus now =>
      exact fun t ht => h t ((processWithdrawal_tasks caller wid newStatus now s) ▸ ht)
  | purchase caller pkgId now => exact fun t ht => h t ((purchase_tasks caller pkgId now s) ▸ ht)

theorem run_tasksNonneg (ops : List Op) : ∀ s : St, TasksNonneg s → TasksNonneg (run s ops) := by
  induction ops with
  | nil => intro s h; exact h
  | cons op ops ih =>
      intro s h
      exact ih _ (step_tasksNonneg s op h)

theorem createSubmission_slots_full
    (s : St) (caller tid now : Nat) (u : User) (t : Task)
    (hc : findUser s caller = some u) (hrole : u.role = Role.worker)
    (ht : findTask s tid = some t) (hactive : t.status = TaskStatus.active)
    (hfull : t.quantity ≤ t.completedCount) :
    createSubmission caller tid now s = (Except.error Err.maxSubmissions, s) := by
  simp only [createSubmission, hc, if_neg (show ¬ u.role ≠ Role.worker by simp [hrole]), ht,
    if_neg (show ¬ t.status ≠ TaskStatus.active by simp [hactive]), if_pos hfull]

/-- C1: the spec claims every debit is conditional on sufficient balance so
coin never goes negative; the code's withdrawal-approval debit has no
sufficiency guard, and after the concrete `c1seq` run the buyer's balance
is -1000, violating the invariant. -/
theorem c1_balance_goes_negative :
    userCoin (run init c1seq) 1 = some (-1000) ∧
    ¬ (∀ u ∈ (run init c1seq).users, 0 ≤ u.coin) := by decide

/-- C2: requesting a withdrawal indeed leaves the balance unchanged, but
when the balance has dropped below the amount, approval does not fail with
InsufficientFunds: it succeeds, debits the full amount into a negative
balance, and marks the withdrawal approved instead of leaving it pending. -/
theorem c2_approval_succeeds_despite_insufficient_balance :
    userCoin (run init (c2seq.take 3)) 1 = some 1050 ∧
    userCoin (run init (c2seq.take 4)) 1 = some 1050 ∧
    (findWithdrawal (run init (c2seq.take 4)) 2).map Withdrawal.status = some WStatus.pending ∧
    userCoin (run init c2seq) 1 = some 0 ∧
    (processWithdrawal 0 2 WStatus.approved 30000 (run init c2seq)).1 = Except.ok () ∧
    userCoin (processWithdrawal 0 2 WStatus.approved 30000 (run init c2seq)).2 1 = some (-1000) ∧
    (findWithdrawal (processWithdrawal 0 2 WStatus.approved 30000 (run init c2seq)).2 2).map Withdrawal.status = some WStatus.approved := by
  decide

/-- C4 counterexample: after `c4seq` the quantity-1 task has
completedCount 2, so completedCount ≤ quantity is violated (approvals do
not re-check the slot bound). -/
theorem c4_completedCount_exceeds_quantity :
    (findTask (run init c4seq) 4).map (fun t => (t.completedCount, t.quantity)) = some (2, 1) ∧
    ¬ (∀ t ∈ (run init c4seq).tasks, t.completedCount ≤ t.quantity) := by decide

/-- C4 (amended): completedCount stays ≥ 0 after every operation sequence,
and submission creation is rejected once completedCount has reached
quantity; the upper bound itself is not preserved by approvals. -/
theorem c4_completedCount_lower_bound_and_slot_guard :
    (∀ ops : List Op, ∀ t ∈ (run init ops).tasks, 0 ≤ t.completedCount) ∧
    (∀ (s : St) (caller tid now : Nat) (u : User) (t : Task),
      findUser s caller = some u → u.role = Role.worker → findTask s tid = some t →
      t.status = TaskStatus.active → t.quantity ≤ t.completedCount →
      createSubmission caller tid now s = (Except.error Err.maxSubmissions, s)) :=
  ⟨fun ops => run_tasksNonneg ops init (fun _ ht => nomatch ht),
   fun s caller tid now u t hc hrole ht ha hf =>
     createSubmission_slots_full s caller tid now u t hc hrole ht ha hf⟩

/-- C4 witness: the lower bound holds on the concrete `c4wseq` run, and a
second worker's submission against the fully-consumed quantity-1 task is
rejected with the slot-full error. -/
theorem c4_completedCount_witness :
    0 ≤ (Task.mk 4 1 10 1 1 TaskStatus.active none).completedCount ∧
    createSubmission 3 4 300 (run init c4wseq) =
      (Except.error Err.maxSubmissions, run init c4wseq) :=
  ⟨c4_completedCount_lower_bound_and_slot_guard.1 c4wseq ⟨4, 1, 10, 1, 1, TaskStatus.active, none⟩ (by decide),
   c4_completedCount_lower_bound_and_slot_guard.2 (run init c4wseq) 3 4 300
     ⟨3, "w2@x.com", Role.worker, 10⟩ ⟨4, 1, 10, 1, 1, TaskStatus.active, none⟩
     (by decide) rfl (by decide) rfl (by decide)⟩

/-- C6 counterexample: a completed (non-pending) withdrawal is happily
re-processed to approved: the call succeeds and the stored status changes,
instead of failing with an invalid-state error and leaving the record
unchanged. -/
theorem c6_completed_withdrawal_reprocessed :
    (findWithdrawal (run init c6seq) 2).map Withdrawal.status = some WStatus.completed ∧
    (processWithdrawal 0 2 WStatus.approved 30000 (run init c6seq)).1 = Except.ok () ∧
    (findWithdrawal (processWithdrawal 0 2 WStatus.approved 30000 (run init c6seq)).2 2).map Withdrawal.status = some WStatus.approved := by
  decide

/-- C7 counterexample: rejecting the pending submission succeeds but the
task's quantity stays 2; the rejected branch never increments quantity. -/
theorem c7_reject_does_not_reopen_slot :
    (reviewSubmission 1 4 false 200 (run init c3seq)).1 = Except.ok () ∧
    (findTask (run init c3seq) 3).map Task.quantity = some 2 ∧
    (findTask (reviewSubmission 1 4 false 200 (run init c3seq)).2 3).map Task.quantity = some 2 ∧
    ¬ ((findTask (reviewSubmission 1 4 false 200 (run init c3seq)).2 3).map Task.quantity = some 3) := by
  decide

/-- C8 counterexample: a review by a non-owning buyer fails with Forbidden
and the status is rolled back, but the submission is not exactly as
before: its reviewedAt was overwritten by the processing lock and the
rollback restores only the status. -/
theorem c8_forbidden_review_mutates_reviewedAt :
    (reviewSubmission 5 4 true 333 (run init c8seq)).1 = Except.error Err.forbidden ∧
    (findSubmission (run init c8seq) 4).map Submission.reviewedAt = some none ∧
    (findSubmission (reviewSubmission 5 4 true 333 (run init c8seq)).2 4).map Submission.reviewedAt = some (some 333) ∧
    ¬ (findSubmission (reviewSubmission 5 4 true 333 (run init c8seq)).2 4 = findSubmission (run init c8seq) 4) := by
  decide


/-- C3 witness: the concrete `c3seq` scenario, approving submission 4 of
task 3 and then attempting to approve it again. -/
theorem review_approve_pays_once_witness :
    (reviewSubmission 1 4 true 200 (run init c3seq)).1 = Except.ok () ∧
    findSubmission (reviewSubmission 1 4 true 200 (run init c3seq)).2 4 =
      some ⟨4, 3, 2, SubStatus.approved, 10, some 200⟩ ∧
    userCoin (reviewSubmission 1 4 true 200 (run init c3seq)).2 2 = some (10 + 10) ∧
    findTask (reviewSubmission 1 4 true 200 (run init c3seq)).2 3 =
      some ⟨3, 1, 10, 2, 0 + 1, TaskStatus.active, none⟩ ∧
    reviewSubmission 1 4 true 300 (reviewSubmission 1 4 true 200 (run init c3seq)).2 =
      (Except.error Err.notFoundOrReviewed, (reviewSubmission 1 4 true 200 (run init c3seq)).2) :=
  review_approve_pays_once (run init c3seq) 1 4 200 300 ⟨4, 3, 2, SubStatus.pending, 0, none⟩
    ⟨3, 1, 10, 2, 0, TaskStatus.active, none⟩ ⟨2, "w@x.com", Role.worker, 10⟩
    ⟨1, "b@x.com", Role.buyer, 30⟩ (by decide) (by decide) (Or.inl rfl) (by decide) rfl
    (by decide) (Or.inl rfl) (by decide)

/-- C5: creating a task debits the buyer by exactly reward times quantity
and records the task; with insufficient balance the creation fails with
InsufficientFunds and the state is untouched; deleting one's own
non-completed task refunds exactly (quantity - completedCount) times the
reward, removes the task, and cascade-deletes only that task's pending
submissions. -/
theorem c5_task_escrow_and_refund :
    (∀ (s : St) (caller : Nat) (reward quantity : Int) (deadline : Option Nat) (u : User),
      findUser s caller = some u → u.role = Role.buyer → 0 < reward → 0 < quantity →
      reward * quantity ≤ u.coin →
      (createTask caller reward quantity deadline s).1 = Except.ok () ∧
      userCoin (createTask caller reward quantity deadline s).2 caller =
        some (u.coin - reward * quantity) ∧
      (createTask caller reward quantity deadline s).2.tasks =
        s.tasks ++ [⟨s.nextId, caller, reward, quantity, 0, TaskStatus.active, deadline⟩]) ∧
    (∀ (s : St) (caller : Nat) (reward quantity : Int) (deadline : Option Nat) (u : User),
      findUser s caller = some u → u.role = Role.buyer → 0 < reward → 0 < quantity →
      u.coin < reward * quantity →
      createTask caller reward quantity deadline s = (Except.error Err.insufficientFunds, s)) ∧
    (∀ (s : St) (caller tid : Nat) (u : User) (t : Task),
      findUser s caller = some u → findTask s tid = some t → t.buyer = caller →
      t.completedCount < t.quantity → 0 < t.reward → (s.tasks.map Task.id).Nodup →
      (deleteTask caller tid s).1 = Except.ok () ∧
      userCoin (deleteTask caller tid s).2 caller =
        some (u.coin + (t.quantity - t.completedCount) * t.reward) ∧
      findTask (deleteTask caller tid s).2 tid = none ∧
      (deleteTask caller tid s).2.submissions =
        s.submissions.filter (fun x => !(x.task == tid && x.status == SubStatus.pending))) :=
  ⟨fun s caller reward quantity deadline u hc hrole hr hq hcoin =>
      createTask_escrow_exact s caller reward quantity deadline u hc hrole hr hq hcoin,
   fun s caller reward quantity deadline u hc hrole hr hq hcoin =>
      createTask_insufficient_rejected s caller reward quantity deadline u hc hrole hr hq hcoin,
   fun s caller tid u t hc ht howner hnc hrw hnd =>
      deleteTask_refund_and_cascade s caller tid u t hc ht howner hnc hrw hnd⟩

/-- C5 witness: a buyer with 50 coins funds a 10-by-5 task (or fails on a
10-by-6 one), and after `c5seq` deletes the five-slot task with
completedCount 2 for a 30-coin refund. -/
theorem c5_task_escrow_witness :
    ((createTask 1 10 5 none (run init (c5seq.take 2))).1 = Except.ok () ∧
     userCoin (createTask 1 10 5 none (run init (c5seq.take 2))).2 1 = some (50 - 10 * 5) ∧
     (createTask 1 10 5 none (run init (c5seq.take 2))).2.tasks =
       (run init (c5seq.take 2)).tasks ++ [⟨(run init (c5seq.take 2)).nextId, 1, 10, 5, 0, TaskStatus.active, none⟩]) ∧
    (createTask 1 10 6 none (run init (c5seq.take 2))) =
      (Except.error Err.insufficientFunds, run init (c5seq.take 2)) ∧
    ((deleteTask 1 4 (run init c5seq)).1 = Except.ok () ∧
     userCoin (deleteTask 1 4 (run init c5seq)).2 1 = some (1000 + (5 - 2) * 10) ∧
     findTask (deleteTask 1 4 (run init c5seq)).2 4 = none ∧
     (deleteTask 1 4 (run init c5seq)).2.submissions =
       (run init c5seq).submissions.filter (fun x => !(x.task == 4 && x.status == SubStatus.pending))) :=
  ⟨c5_task_escrow_and_refund.1 (run init (c5seq.take 2)) 1 10 5 none
      ⟨1, "b@x.com", Role.buyer, 50⟩ (by decide) rfl (by decide) (by decide) (by decide),
   c5_task_escrow_and_refund.2.1 (run init (c5seq.take 2)) 1 10 6 none
      ⟨1, "b@x.com", Role.buyer, 50⟩ (by decide) rfl (by decide) (by decide) (by decide),
   c5_task_escrow_and_refund.2.2 (run init c5seq) 1 4
      ⟨1, "b@x.com", Role.buyer, 1000⟩ ⟨4, 1, 10, 5, 2, TaskStatus.active, none⟩
      (by decide) (by decide) rfl (by decide) (by decide) (by decide)⟩

/-- C6 witness: re-processing the completed withdrawal of `c6seq` as
approved succeeds, overwrites the status, and leaves the balance alone
(no branch of the delta applies). -/
theorem processWithdrawal_always_overwrites_witness :
    (processWithdrawal 0 2 WStatus.approved 30000 (run init c6seq)).1 = Except.ok () ∧
    findWithdrawal (processWithdrawal 0 2 WStatus.approved 30000 (run init c6seq)).2 2 =
      some ⟨2, 1, 200, WStatus.approved, some 30000⟩ ∧
    userCoin (processWithdrawal 0 2 WStatus.approved 30000 (run init c6seq)).2 1 =
      some (1050 + (if WStatus.approved = WStatus.approved ∧ WStatus.completed = WStatus.pending then -(200 : Int) else if WStatus.approved = WStatus.rejected ∧ WStatus.completed = WStatus.approved then 200 else 0)) :=
  processWithdrawal_always_overwrites (run init c6seq) 0 2 WStatus.approved 30000
    ⟨0, "admin@microearn.com", Role.admin, 0⟩ ⟨1, "b@x.com", Role.buyer, 1050⟩
    ⟨2, 1, 200, WStatus.completed, some 20000⟩ (by decide) rfl (by decide) (by decide) (by decide)

/-- C7 witness: rejecting the pending submission of `c3seq` leaves users
and tasks unchanged and marks the submission rejected. -/
theorem review_reject_state_witness :
    (reviewSubmission 1 4 false 200 (run init c3seq)).1 = Except.ok () ∧
    (reviewSubmission 1 4 false 200 (run init c3seq)).2.users = (run init c3seq).users ∧
    (reviewSubmission 1 4 false 200 (run init c3seq)).2.tasks = (run init c3seq).tasks ∧
    findSubmission (reviewSubmission 1 4 false 200 (run init c3seq)).2 4 =
      some ⟨4, 3, 2, SubStatus.rejected, 0, some 200⟩ :=
  review_reject_state (run init c3seq) 1 4 200 ⟨4, 3, 2, SubStatus.pending, 0, none⟩
    ⟨3, 1, 10, 2, 0, TaskStatus.active, none⟩ ⟨1, "b@x.com", Role.buyer, 30⟩
    (by decide) (Or.inl rfl) (by decide) rfl (by decide) (Or.inl rfl)

/-- C8 witness: the non-owning buyer 5 tries to approve submission 4 in
`c8seq`: Forbidden, balances and tasks unchanged, status back to pending,
reviewedAt clobbered with the attempt time. -/
theorem review_forbidden_witness :
    (reviewSubmission 5 4 true 333 (run init c8seq)).1 = Except.error Err.forbidden ∧
    (reviewSubmission 5 4 true 333 (run init c8seq)).2.users = (run init c8seq).users ∧
    (reviewSubmission 5 4 true 333 (run init c8seq)).2.tasks = (run init c8seq).tasks ∧
    findSubmission (reviewSubmission 5 4 true 333 (run init c8seq)).2 4 =
      some ⟨4, 3, 2, SubStatus.pending, 0, some 333⟩ :=
  review_forbidden_rolls_back_status_only (run init c8seq) 5 4 333 true
    ⟨4, 3, 2, SubStatus.pending, 0, none⟩ ⟨3, 1, 10, 2, 0, TaskStatus.active, none⟩
    ⟨5, "b2@x.com", Role.buyer, 50⟩ (by decide) rfl (by decide) rfl (by decide) (by decide)

/-- C9: a purchase with an unknown package id fails with a validation
error and no state change; a valid purchase credits exactly the package's
fixed coin amount and appends one completed payment record; an immediate
repeat purchase of the same package inside the five-second window is
rejected as a duplicate with no further credit. -/
theorem c9_purchase_credit_correct :
    (∀ (s : St) (caller : Nat) (pkgId : String) (now : Nat) (u : User),
      findUser s caller = some u → u.role = Role.buyer ∨ u.role = Role.admin →
      COIN_PACKAGES.find? (fun p => p.id == pkgId) = none →
      purchase caller pkgId now s = (Except.error Err.validation, s)) ∧
    (∀ (s : St) (caller : Nat) (pkgId : String) (now : Nat) (u : User) (pkg : Package),
      findUser s caller = some u → u.role = Role.buyer ∨ u.role = Role.admin →
      COIN_PACKAGES.find? (fun p => p.id == pkgId) = some pkg →
      s.payments.find? (fun p => p.user == caller && (now - 5000 ≤ p.createdAt : Bool) && p.packageId == pkg.id && p.status == PayStatus.completed) = none →
      (purchase caller pkgId now s).1 = Except.ok () ∧
      userCoin (purchase caller pkgId now s).2 caller = some (u.coin + pkg.coins) ∧
      (purchase caller pkgId now s).2.payments =
        s.payments ++ [⟨caller, pkg.id, pkg.coins, pkg.price, PayStatus.completed, now⟩]) ∧
    (∀ (s : St) (caller : Nat) (pkgId : String) (n1 n2 : Nat) (u : User) (pkg : Package),
      findUser s caller = some u → u.role = Role.buyer ∨ u.role = Role.admin →
      COIN_PACKAGES.find? (fun p => p.id == pkgId) = some pkg →
      s.payments.find? (fun p => p.user == caller && (n1 - 5000 ≤ p.createdAt : Bool) && p.packageId == pkg.id && p.status == PayStatus.completed) = none →
      s.payments.find? (fun p => p.user == caller && (n2 - 5000 ≤ p.createdAt : Bool) && p.packageId == pkg.id && p.status == PayStatus.completed) = none →
      n2 - 5000 ≤ n1 →
      purchase caller pkgId n2 (purchase caller pkgId n1 s).2 =
        (Except.error Err.duplicatePayment, (purchase caller pkgId n1 s).2)) :=
  ⟨fun s caller pkgId now u hc hrole hpk =>
      purchase_invalid_package s caller pkgId now u hc hrole hpk,
   fun s caller pkgId now u pkg hc hrole hpk hdup =>
      purchase_credits_fixed_amount s caller pkgId now u pkg hc hrole hpk hdup,
   fun s caller pkgId n1 n2 u pkg hc hrole hpk hdup1 hdup2 hwin =>
      purchase_duplicate_window_rejected s caller pkgId n1 n2 u pkg hc hrole hpk hdup1 hdup2 hwin⟩

/-- C9 witness: a fresh buyer rejects the bogus package, is credited 150
coins for pkg_150, and a repeat pkg_150 purchase 4999 ms later is turned
away as a duplicate. -/
theorem c9_purchase_credit_witness :
    purchase 1 "bogus" 5000 (run init (c2seq.take 2)) =
      (Except.error Err.validation, run init (c2seq.take 2)) ∧
    ((purchase 1 "pkg_150" 10000 (run init (c2seq.take 2))).1 = Except.ok () ∧
     userCoin (purchase 1 "pkg_150" 10000 (run init (c2seq.take 2))).2 1 = some (50 + 150) ∧
     (purchase 1 "pkg_150" 10000 (run init (c2seq.take 2))).2.payments =
       (run init (c2seq.take 2)).payments ++ [⟨1, "pkg_150", 150, 10, PayStatus.completed, 10000⟩]) ∧
    purchase 1 "pkg_150" 14999 (purchase 1 "pkg_150" 10000 (run init (c2seq.take 2))).2 =
      (Except.error Err.duplicatePayment, (purchase 1 "pkg_150" 10000 (run init (c2seq.take 2))).2) :=
  ⟨c9_purchase_credit_correct.1 (run init (c2seq.take 2)) 1 "bogus" 5000
      ⟨1, "b@x.com", Role.buyer, 50⟩ (by decide) (Or.inl rfl) (by decide),
   c9_purchase_credit_correct.2.1 (run init (c2seq.take 2)) 1 "pkg_150" 10000
      ⟨1, "b@x.com", Role.buyer, 50⟩ ⟨"pkg_150", 150, 10⟩ (by decide) (Or.inl rfl)
      (by decide) (by decide),
   c9_purchase_credit_correct.2.2 (run init (c2seq.take 2)) 1 "pkg_150" 10000 14999
      ⟨1, "b@x.com", Role.buyer, 50⟩ ⟨"pkg_150", 150, 10⟩ (by decide) (Or.inl rfl)
      (by decide) (by decide) (by decide) (by decide)⟩

/-- C10: registration grants a nonzero starting balance fixed by role —
10 coins for a Worker, 50 for a Buyer — and Google sign-up creates a
Worker with 10 coins; coins thus enter the system at account creation,
outside the purchase path. -/
theorem c10_signup_coin_grants :
    (∀ (s : St) (email : String),
      s.users.find? (fun u => u.email == email) = none →
      register email Role.worker s =
        (Except.ok (), { s with users := s.users ++ [⟨s.nextId, email, Role.worker, 10⟩], nextId := s.nextId + 1 })) ∧
    (∀ (s : St) (email : String),
      s.users.find? (fun u => u.email == email) = none →
      register email Role.buyer s =
        (Except.ok (), { s with users := s.users ++ [⟨s.nextId, email, Role.buyer, 50⟩], nextId := s.nextId + 1 })) ∧
    (∀ (s : St) (email : String),
      s.users.find? (fun u => u.email == email) = none →
      googleAuth email s =
        (Except.ok (), { s with users := s.users ++ [⟨s.nextId, email, Role.worker, 10⟩], nextId := s.nextId + 1 })) :=
  ⟨fun s email hfresh => register_worker_grant s email hfresh,
   fun s email hfresh => register_buyer_grant s email hfresh,
   fun s email hfresh => googleAuth_worker_grant s email hfresh⟩

/-- C10 witness: registering a worker, a buyer, and a Google worker on the
empty initial state creates accounts with 10, 50, and 10 coins. -/
theorem c10_signup_coin_grants_witness :
    register "w@x.com" Role.worker init =
      (Except.ok (), { init with users := init.users ++ [⟨init.nextId, "w@x.com", Role.worker, 10⟩], nextId := init.nextId + 1 }) ∧
    register "b@x.com" Role.buyer init =
      (Except.ok (), { init with users := init.users ++ [⟨init.nextId, "b@x.com", Role.buyer, 50⟩], nextId := init.nextId + 1 }) ∧
    googleAuth "g@x.com" init =
      (Except.ok (), { init with users := init.users ++ [⟨init.nextId, "g@x.com", Role.worker, 10⟩], nextId := init.nextId + 1 }) :=
  ⟨c10_signup_coin_grants.1 init "w@x.com" (by decide),
   c10_signup_coin_grants.2.1 init "b@x.com" (by decide),
   c10_signup_coin_grants.2.2 init "g@x.com" (by decide)⟩


end MicroEarn
